import Mathlib

set_option linter.unusedVariables false

/-!
Verification of the result-normalization and orchestration layer of the
Sacch.ai security dashboard.  The definitions below are shallow embeddings of
the TypeScript sources:

  - the Mode B free-text parser of `analyzeScamContent` (src/services/geminiService.ts),
  - the JSON normalizers of the email and deepfake paths (duck-typed field
    defaulting over parsed JSON),
  - the URL denylist policy `validateUrlForScanning` and the VirusTotal
    scan orchestration (src/unnamed/part_001, the proxy-based service file),
  - the fact-check source merge of `checkFactWithGemini`.

Platform built-ins (regular-expression matching, `JSON.parse`, the WHATWG
`new URL` constructor) are modelled directly over lists of characters,
following the exact semantics the source relies on; simplifications are
noted at each definition.
-/

/-! ## JavaScript string primitives -/

/-- Whitespace class used by the JavaScript regular expressions (`\s`),
`String.prototype.trim` and friends, restricted to the ASCII members that can
occur in the texts handled here. -/
def jsWs (c : Char) : Bool :=
  c = ' ' || c = '\t' || c = '\n' || c = '\r' || c = Char.ofNat 11 || c = Char.ofNat 12

/-- Case-insensitive literal match: if `needle` is a prefix of `hay` up to
ASCII case, return the rest of `hay`.  Mirrors a case-insensitive regex
literal under the `i` flag. -/
def matchCI : List Char → List Char → Option (List Char)
  | [], l => some l
  | _ :: _, [] => none
  | n :: ns, c :: cs => if n.toLower = c.toLower then matchCI ns cs else none

/-- Case-sensitive literal match returning the remainder on success. -/
def matchCS : List Char → List Char → Option (List Char)
  | [], l => some l
  | _ :: _, [] => none
  | n :: ns, c :: cs => if n = c then matchCS ns cs else none

/-- `hay` contains `needle` as a contiguous (case-sensitive) sublist;
mirrors `String.prototype.includes`. -/
def listContains : List Char → List Char → Bool
  | [], needle => needle.isEmpty
  | c :: cs, needle => (matchCS needle (c :: cs)).isSome || listContains cs needle

/-- Leftmost scan: try the position matcher `p` at every suffix of the input,
leftmost first — the search behaviour of `String.prototype.match` with a
non-anchored regular expression. -/
def scanFrom (p : List Char → Option α) : List Char → Option α
  | [] => p []
  | c :: cs =>
    match p (c :: cs) with
    | some x => some x
    | none => scanFrom p cs

/-- Index of the first (case-insensitive) occurrence of `needle`; `none` when
absent.  `needle` is assumed non-empty at every use site. -/
def firstOccIdx (needle : List Char) : List Char → Option Nat
  | [] => none
  | c :: cs =>
    if (matchCI needle (c :: cs)).isSome then some 0
    else (firstOccIdx needle cs).map Nat.succ

/-- Decimal value of a digit string, as computed by `parseInt(d, 10)` on a
string of digits. -/
def digitsVal (l : List Char) : Nat :=
  l.foldl (fun a c => a * 10 + (c.toNat - 48)) 0

/-- `String.prototype.trim`. -/
def jsTrim (s : String) : String :=
  String.mk (((s.toList.dropWhile jsWs).reverse.dropWhile jsWs).reverse)

/-- ASCII lower-casing, as `String.prototype.toLowerCase` on the inputs
handled here. -/
def lowerStr (s : String) : String :=
  String.mk (s.toList.map Char.toLower)

/-! ## Mode B free-text parser (analyzeScamContent, URL/FILE branch)

Embeds the four regular-expression extractions of
src/services/geminiService.ts lines 497-531. -/

/-- The closed verdict set of types.ts. -/
inductive Verdict where
  | TRUE | FALSE | UNCERTAIN | SAFE | SUSPICIOUS | MALICIOUS | LIKELY_REAL | LIKELY_FAKE
deriving DecidableEq, Repr

/-- Position matcher for `/Score:\s*(\d+)/i`: the literal, greedy whitespace,
then at least one digit.  Whitespace and digits are disjoint, so the greedy
`\s*` never backtracks before a successful `\d+`. -/
def scoreAt (l : List Char) : Option Nat :=
  match matchCI "Score:".toList l with
  | none => none
  | some r =>
    let ds := (r.dropWhile jsWs).takeWhile Char.isDigit
    if ds.isEmpty then none else some (digitsVal ds)

/-- Position matcher for `/Verdict:\s*(SAFE|SUSPICIOUS|MALICIOUS)/i`, trying
the alternatives in the order the source writes them. -/
def verdictAt (l : List Char) : Option Verdict :=
  match matchCI "Verdict:".toList l with
  | none => none
  | some r =>
    let r2 := r.dropWhile jsWs
    if (matchCI "SAFE".toList r2).isSome then some .SAFE
    else if (matchCI "SUSPICIOUS".toList r2).isSome then some .SUSPICIOUS
    else if (matchCI "MALICIOUS".toList r2).isSome then some .MALICIOUS
    else none

/-- Position matcher for `/Analysis:\s*([\s\S]+?)(?=Recommendations:|$)/i`.
After the literal, the greedy `\s*` takes the maximal whitespace run `i`; the
lazy group then takes the minimal non-empty stretch whose end either starts
the (case-insensitive) literal `Recommendations:` or is the end of the text.
When everything after the literal is whitespace the engine backtracks `\s*`
by one character so the group can hold that single character. -/
def analysisAt (l : List Char) : Option (List Char) :=
  match matchCI "Analysis:".toList l with
  | none => none
  | some r =>
    let i := (r.takeWhile jsWs).length
    if i + 1 ≤ r.length then
      let k :=
        match firstOccIdx "Recommendations:".toList (r.drop (i + 1)) with
        | some j => i + 1 + j
        | none => r.length
      some ((r.take k).drop i)
    else if 1 ≤ i then some (r.drop (i - 1))
    else none

/-- Position matcher for `/Recommendations:\s*([\s\S]+)/i`: the greedy group
takes everything after the maximal whitespace run; when only whitespace
remains the engine backtracks one character as above. -/
def recommendAt (l : List Char) : Option (List Char) :=
  match matchCI "Recommendations:".toList l with
  | none => none
  | some r =>
    let i := (r.takeWhile jsWs).length
    if i + 1 ≤ r.length then some (r.drop i)
    else if 1 ≤ i then some (r.drop (i - 1))
    else none

/-- `split("\n")` over the character list, the JavaScript single-character
string split. -/
def splitLines : List Char → List (List Char)
  | [] => [[]]
  | c :: cs =>
    if c = '\n' then [] :: splitLines cs
    else
      match splitLines cs with
      | h :: t => (c :: h) :: t
      | [] => [[c]]

/-- `replace(/^-\s*/, "")`. -/
def stripDash (s : String) : String :=
  match s.toList with
  | c :: rest => if c = '-' then String.mk (rest.dropWhile jsWs) else s
  | [] => s

/-- `replace(/^\*\s*/, "")`. -/
def stripStar (s : String) : String :=
  match s.toList with
  | c :: rest => if c = '*' then String.mk (rest.dropWhile jsWs) else s
  | [] => s

/-- `replace(/^\d+\.\s*/, "")`. -/
def stripNumDot (s : String) : String :=
  let l := s.toList
  let ds := l.takeWhile Char.isDigit
  if ds.isEmpty then s
  else
    match l.drop ds.length with
    | c :: rest => if c = '.' then String.mk (rest.dropWhile jsWs) else s
    | [] => s

/-- The three successive bullet-marker replacements applied to each
recommendation line. -/
def stripBullet (s : String) : String :=
  stripNumDot (stripStar (stripDash s))

/-- Result of the free-text threat-assessment parse (the `score`, `verdict`,
`analysis`, `recommendations` fields of ScamAnalysisResult; the pass-through
`vtStats`/`permalink` fields carry no parsing logic and are not modelled). -/
structure ScamAnalysisResult where
  score : Nat
  verdict : Verdict
  analysis : String
  recommendations : List String
deriving DecidableEq, Repr

/-- The Mode B parsing stage of `analyzeScamContent` for URL/FILE inputs
(src/services/geminiService.ts lines 497-531): defaults
`score = 50`, `verdict = SUSPICIOUS`, `analysis = the whole text`,
`recommendations = ["Proceed with caution."]`, each overridden when its
regular expression matches. -/
def analyzeScamContentParse (textRes : String) : ScamAnalysisResult :=
  let l := textRes.toList
  let score :=
    match scanFrom scoreAt l with
    | some n => n
    | none => 50
  let verdict :=
    match scanFrom verdictAt l with
    | some .SAFE => Verdict.SAFE
    | some .MALICIOUS => Verdict.MALICIOUS
    | _ => Verdict.SUSPICIOUS
  let analysis :=
    match scanFrom analysisAt l with
    | some g => jsTrim (String.mk g)
    | none => textRes
  let recommendations :=
    match scanFrom recommendAt l with
    | some g =>
      ((splitLines g).map (fun seg => stripBullet (jsTrim (String.mk seg)))).filter
        (fun s => s ≠ "")
    | none => ["Proceed with caution."]
  ⟨score, verdict, analysis, recommendations⟩

/-! ## JSON values and JSON.parse

Model of the JavaScript `JSON.parse` built-in, used by the email-analysis and
deepfake normalizers.  Numbers are kept as exact rationals (JSON numbers are
decimal literals; the claims only involve small integers, where the IEEE
float produced by the runtime is exact).  Unicode escape sequences denoting
surrogate halves are rejected rather than paired. -/

/-- Opening curly brace character (written via its code point so that no
brace appears inside a character literal). -/
def lbrace : Char := Char.ofNat 123

/-- Closing curly brace character. -/
def rbrace : Char := Char.ofNat 125

/-- Parsed JSON value. -/
inductive Jv where
  | null : Jv
  | bool : Bool → Jv
  | num : Rat → Jv
  | str : String → Jv
  | arr : List Jv → Jv
  | obj : List (String × Jv) → Jv

/-- JSON insignificant whitespace (RFC 8259: space, tab, line feed, carriage
return). -/
def jsonWs (c : Char) : Bool :=
  c = ' ' || c = '\t' || c = '\n' || c = '\r'

/-- Drop leading JSON whitespace. -/
def skipJsonWs (l : List Char) : List Char :=
  l.dropWhile jsonWs

/-- Value of one hexadecimal digit. -/
def hexVal (c : Char) : Option Nat :=
  if '0' ≤ c ∧ c ≤ '9' then some (c.toNat - 48)
  else if 'a' ≤ c ∧ c ≤ 'f' then some (c.toNat - 87)
  else if 'A' ≤ c ∧ c ≤ 'F' then some (c.toNat - 55)
  else none

/-- Body of a JSON string literal, after the opening quote; returns the
decoded string and the input after the closing quote. -/
def jStrAux (acc : List Char) : List Char → Option (String × List Char)
  | [] => none
  | c :: cs =>
    if c = '"' then some (String.mk acc.reverse, cs)
    else if c = '\\' then
      match cs with
      | [] => none
      | e :: cs2 =>
        if e = '"' then jStrAux ('"' :: acc) cs2
        else if e = '\\' then jStrAux ('\\' :: acc) cs2
        else if e = '/' then jStrAux ('/' :: acc) cs2
        else if e = 'b' then jStrAux (Char.ofNat 8 :: acc) cs2
        else if e = 'f' then jStrAux (Char.ofNat 12 :: acc) cs2
        else if e = 'n' then jStrAux ('\n' :: acc) cs2
        else if e = 'r' then jStrAux ('\r' :: acc) cs2
        else if e = 't' then jStrAux ('\t' :: acc) cs2
        else if e = 'u' then
          match cs2 with
          | h1 :: h2 :: h3 :: h4 :: cs3 =>
            match hexVal h1, hexVal h2, hexVal h3, hexVal h4 with
            | some a, some b, some c2, some d =>
              let n := ((a * 16 + b) * 16 + c2) * 16 + d
              if n < 55296 ∨ 57343 < n then jStrAux (Char.ofNat n :: acc) cs3
              else none
            | _, _, _, _ => none
          | _ => none
        else none
    else if c.toNat < 32 then none
    else jStrAux (c :: acc) cs

/-- JSON number literal: optional minus, integer part without leading zeros,
optional fraction, optional exponent; exact rational value. -/
def parseJNum (l : List Char) : Option (Rat × List Char) :=
  let (neg, l1) :=
    match l with
    | '-' :: r => (true, r)
    | _ => (false, l)
  let intDigits := l1.takeWhile Char.isDigit
  if intDigits.isEmpty then none
  else if 2 ≤ intDigits.length ∧ intDigits.head? = some '0' then none
  else
    let l2 := l1.drop intDigits.length
    let (fracDigits, l3) :=
      match l2 with
      | '.' :: r =>
        let fs := r.takeWhile Char.isDigit
        (fs, r.drop fs.length)
      | _ => ([], l2)
    if l2.head? = some '.' ∧ fracDigits.isEmpty then none
    else
      let (expOk, expNeg, expDigits, l4) :=
        match l3 with
        | 'e' :: r | 'E' :: r =>
          let (en, r2) :=
            match r with
            | '+' :: r3 => (false, r3)
            | '-' :: r3 => (true, r3)
            | _ => (false, r)
          let es := r2.takeWhile Char.isDigit
          (!es.isEmpty, en, es, r2.drop es.length)
        | _ => (true, false, [], l3)
      if expOk = false then none
      else
        let mantNat := digitsVal (intDigits ++ fracDigits)
        let mant : Int := if neg then -(mantNat : Int) else (mantNat : Int)
        let e := digitsVal expDigits
        let q : Rat :=
          if expNeg then mkRat mant (10 ^ (fracDigits.length + e))
          else mkRat (mant * (10 : Int) ^ e) (10 ^ fracDigits.length)
        some (q, l4)

mutual

/-- JSON value, fuel-bounded recursive descent.  The fuel is instantiated
with more than the input length, which bounds the nesting depth; it never
runs out on the inputs `jsonParse` passes. -/
def parseJValue : Nat → List Char → Option (Jv × List Char)
  | 0, _ => none
  | fuel + 1, l =>
    match skipJsonWs l with
    | [] => none
    | c :: cs =>
      if c = '"' then (jStrAux [] cs).map (fun p => (Jv.str p.1, p.2))
      else if c = lbrace then
        match skipJsonWs cs with
        | d :: ds =>
          if d = rbrace then some (Jv.obj [], ds)
          else parseJMembers fuel (d :: ds) []
        | [] => none
      else if c = '[' then
        match skipJsonWs cs with
        | d :: ds =>
          if d = ']' then some (Jv.arr [], ds)
          else parseJElems fuel (d :: ds) []
        | [] => none
      else if c = 't' then (matchCS "rue".toList cs).map (fun r => (Jv.bool true, r))
      else if c = 'f' then (matchCS "alse".toList cs).map (fun r => (Jv.bool false, r))
      else if c = 'n' then (matchCS "ull".toList cs).map (fun r => (Jv.null, r))
      else if c = '-' ∨ c.isDigit then (parseJNum (c :: cs)).map (fun p => (Jv.num p.1, p.2))
      else none

/-- Object members, called at a position expecting a string key. -/
def parseJMembers : Nat → List Char → List (String × Jv) → Option (Jv × List Char)
  | 0, _, _ => none
  | fuel + 1, l, acc =>
    match l with
    | c :: cs =>
      if c = '"' then
        match jStrAux [] cs with
        | none => none
        | some (key, r1) =>
          match skipJsonWs r1 with
          | ':' :: r2 =>
            match parseJValue fuel r2 with
            | none => none
            | some (v, r3) =>
              match skipJsonWs r3 with
              | ',' :: r4 => parseJMembers fuel (skipJsonWs r4) (acc ++ [(key, v)])
              | d :: r4 =>
                if d = rbrace then some (Jv.obj (acc ++ [(key, v)]), r4) else none
              | [] => none
          | _ => none
      else none
    | [] => none

/-- Array elements, called at a position expecting a value. -/
def parseJElems : Nat → List Char → List Jv → Option (Jv × List Char)
  | 0, _, _ => none
  | fuel + 1, l, acc =>
    match parseJValue fuel l with
    | none => none
    | some (v, r1) =>
      match skipJsonWs r1 with
      | ',' :: r2 => parseJElems fuel r2 (acc ++ [v])
      | ']' :: r2 => some (Jv.arr (acc ++ [v]), r2)
      | _ => none

end

/-- `JSON.parse`: parse one value and require only whitespace after it. -/
def jsonParse (s : String) : Option Jv :=
  let l := s.toList
  match parseJValue (l.length + 1) l with
  | some (v, rest) => if skipJsonWs rest = [] then some v else none
  | none => none

/-! ## Duck-typed field access and defaulting (Mode A normalizers) -/

/-- Property access `v.k` on a parsed JSON value: a field of an object,
`undefined` (here `none`) on any non-object receiver.  Access on `null`
throws in JavaScript and is handled at the call sites.  With duplicate keys
`JSON.parse` keeps the last occurrence. -/
def jsGet (v : Jv) (k : String) : Option Jv :=
  match v with
  | .obj fs => (fs.reverse.find? (fun p => p.1 = k)).map (fun p => p.2)
  | _ => none

/-- JavaScript truthiness of a possibly-undefined value. -/
def jsTruthy : Option Jv → Bool
  | none => false
  | some .null => false
  | some (.bool b) => b
  | some (.num q) => q ≠ 0
  | some (.str s) => s ≠ ""
  | some (.arr _) => true
  | some (.obj _) => true

/-- The `??` operator: default only for `undefined`/`null`. -/
def jsNullish (o : Option Jv) (d : Jv) : Jv :=
  match o with
  | none => d
  | some .null => d
  | some x => x

/-- The `||` operator on a possibly-undefined value: default for any falsy
value. -/
def jsOrElse (o : Option Jv) (d : Jv) : Jv :=
  if jsTruthy o then
    match o with
    | some x => x
    | none => d
  else d

/-- The email-path result, fields kept as raw JSON values exactly as the
duck-typed source passes them through. -/
structure ScamEmailNormalized where
  score : Jv
  verdict : Jv
  analysis : Jv
  recommendations : Jv

/-- Normalization of the email branch of `analyzeScamContent`
(src/services/geminiService.ts lines 573-579):
`JSON.parse(response.text || "\x7b\x7d")` followed by per-field defaulting.
A non-empty response that fails to parse throws inside the try block, which
the handler converts to the fixed failure error; property access on a parsed
`null` throws the same way. -/
def analyzeScamContentEmail (text : String) : Except String ScamEmailNormalized :=
  let raw := if text = "" then "\x7b\x7d" else text
  match jsonParse raw with
  | none => .error "Failed to analyze content."
  | some .null => .error "Failed to analyze content."
  | some v =>
    .ok ⟨jsNullish (jsGet v "score") (.num 50),
         jsOrElse (jsGet v "verdict") (.str "SUSPICIOUS"),
         jsOrElse (jsGet v "analysis") (.str "### Analysis Unavailable\nCould not process the text."),
         jsOrElse (jsGet v "recommendations") (.arr [.str "Proceed with caution."])⟩

/-- The deepfake-path result, fields kept as raw JSON values. -/
structure DeepfakeNormalized where
  verdict : Jv
  confidence : Jv
  technicalDetails : Jv
  visualArtifacts : Jv
  audioArtifacts : Jv

/-- Normalization of `analyzeDeepfakeMedia`
(src/services/geminiService.ts lines 635-642): same parse step, then
`verdict || UNCERTAIN`, `confidence ?? 0`, `technicalDetails || <message>`,
`visualArtifacts || []`, `audioArtifacts || []`. -/
def analyzeDeepfakeMediaNormalize (text : String) : Except String DeepfakeNormalized :=
  let raw := if text = "" then "\x7b\x7d" else text
  match jsonParse raw with
  | none => .error "Failed to analyze media. File might be too large or format unsupported."
  | some .null => .error "Failed to analyze media. File might be too large or format unsupported."
  | some v =>
    .ok ⟨jsOrElse (jsGet v "verdict") (.str "UNCERTAIN"),
         jsNullish (jsGet v "confidence") (.num 0),
         jsOrElse (jsGet v "technicalDetails") (.str "Could not process media details."),
         jsOrElse (jsGet v "visualArtifacts") (.arr []),
         jsOrElse (jsGet v "audioArtifacts") (.arr [])⟩

/-- The defaulted email result produced from an empty JSON object. -/
def scamEmailDefaults : ScamEmailNormalized :=
  ⟨.num 50, .str "SUSPICIOUS",
   .str "### Analysis Unavailable\nCould not process the text.",
   .arr [.str "Proceed with caution."]⟩

/-- The defaulted deepfake result produced from an empty JSON object. -/
def deepfakeEmptyDefaults : DeepfakeNormalized :=
  ⟨.str "UNCERTAIN", .num 0, .str "Could not process media details.", .arr [], .arr []⟩

/-! ## URL policy (validateUrlForScanning, src/unnamed/part_001 lines 63-106)

The WHATWG `new URL` constructor is modelled for absolute hierarchical URLs:
scheme, optional slashes, authority (userinfo stripped at the last `@`, port
stripped at the first `:` outside brackets), hostname lower-cased.  The
standard's tab/newline stripping, percent-decoding and IDNA mapping are not
modelled; none of the URLs the policy handles need them. -/

/-- ASCII letter test. -/
def isAsciiLetter (c : Char) : Bool :=
  ('a' ≤ c && c ≤ 'z') || ('A' ≤ c && c ≤ 'Z')

/-- Characters allowed after the first character of a URL scheme. -/
def isSchemeChar (c : Char) : Bool :=
  isAsciiLetter c || c.isDigit || c = '+' || c = '-' || c = '.'

/-- Suffix after the last `@`, the hostname side of an authority. -/
def afterLastAt (l : List Char) : List Char :=
  (l.reverse.takeWhile (fun c => c ≠ '@')).reverse

/-- Schemes the URL standard treats as special (authority mandatory,
backslashes act as slashes). -/
def specialSchemes : List String := ["http", "https", "ws", "wss", "ftp"]

/-- Hostname of the authority part: bracketed IPv6 literal kept whole,
otherwise everything before the first colon. -/
def hostOfAuthority (hostPort : List Char) : Option (List Char) :=
  match hostPort with
  | '[' :: rest =>
    if rest.contains ']' then some ('[' :: rest.takeWhile (fun c => c ≠ ']') ++ [']'])
    else none
  | _ => some (hostPort.takeWhile (fun c => c ≠ ':'))

/-- `new URL(s).hostname`, or `none` when the constructor throws. -/
def parseUrlHostname (s : String) : Option String :=
  let l := s.toList
  match l with
  | [] => none
  | c0 :: _ =>
    if isAsciiLetter c0 = false then none
    else
      let schemeChars := l.takeWhile isSchemeChar
      match l.drop schemeChars.length with
      | ':' :: r2 =>
        let scheme := lowerStr (String.mk schemeChars)
        if specialSchemes.contains scheme then
          let r3 := r2.dropWhile (fun c => c = '/' || c = '\\')
          let authority := r3.takeWhile (fun c => c ≠ '/' ∧ c ≠ '?' ∧ c ≠ '#' ∧ c ≠ '\\')
          match hostOfAuthority (afterLastAt authority) with
          | none => none
          | some host =>
            if host.isEmpty then none
            else if host.contains ' ' then none
            else some (lowerStr (String.mk host))
        else
          match r2 with
          | '/' :: '/' :: r3 =>
            let authority := r3.takeWhile (fun c => c ≠ '/' ∧ c ≠ '?' ∧ c ≠ '#')
            match hostOfAuthority (afterLastAt authority) with
            | none => none
            | some host =>
              if host.contains ' ' then none
              else some (lowerStr (String.mk host))
          | _ => some ""
      | _ => none

/-- The `{valid, reason}` record returned by the policy check. -/
structure UrlValidation where
  valid : Bool
  reason : Option String
deriving DecidableEq, Repr

/-- The private/loopback/link-local address markers of the source, in order. -/
def privateRanges : List String :=
  ["127.0.0.1", "localhost", "0.0.0.0",
   "10.", "192.168.", "172.16.", "172.17.", "172.18.", "172.19.",
   "172.20.", "172.21.", "172.22.", "172.23.", "172.24.", "172.25.",
   "172.26.", "172.27.", "172.28.", "172.29.", "172.30.", "172.31.",
   "169.254.", "::1", "fc00:", "fe80:"]

/-- The large platform domains the source restricts, in order. -/
def restrictedDomains : List String :=
  ["google.com", "microsoft.com", "apple.com", "amazon.com",
   "facebook.com", "meta.com", "twitter.com", "x.com",
   "linkedin.com", "instagram.com", "youtube.com"]

/-- `hostname.startsWith(p)`. -/
def startsWithStr (s p : String) : Bool :=
  (matchCS p.toList s.toList).isSome

/-- `hostname.endsWith(p)`. -/
def endsWithStr (s p : String) : Bool :=
  (matchCS p.toList.reverse s.toList.reverse).isSome

/-- `validateUrlForScanning` (src/unnamed/part_001 lines 63-106): total; a
URL whose constructor throws is reported as invalid format, then the
private-range, own-domain and restricted-platform checks run in the order of
the source. -/
def validateUrlForScanning (url : String) : UrlValidation :=
  match parseUrlHostname url with
  | none => ⟨false, some "Invalid URL format"⟩
  | some host0 =>
    let hostname := lowerStr host0
    if privateRanges.any (fun r => startsWithStr hostname r) then
      ⟨false, some "Private/internal IP addresses cannot be scanned"⟩
    else if listContains hostname.toList "virustotal.com".toList then
      ⟨false, some "VirusTotal URLs cannot be scanned"⟩
    else
      match restrictedDomains.find? (fun d => hostname = d || endsWithStr hostname ("." ++ d)) with
      | some d => ⟨false, some ("Scanning " ++ d ++ " URLs is restricted")⟩
      | none => ⟨true, none⟩

/-! ## ReputationReport construction (getVirusTotalReport, src/unnamed/part_001 lines 141-194)

The network fetch is abstracted away; this is the pure construction of the
report from the upstream response body.  `Option` fields model JSON keys
that may be absent.  `scanDate` keeps the upstream epoch timestamp when it
is present and truthy; `none` stands for the wall-clock fallback
`new Date().toISOString()`. -/

/-- The `last_analysis_stats` object of the upstream response; each counter
key may be absent. -/
structure VTAnalysisStats where
  malicious : Option Nat
  suspicious : Option Nat
  harmless : Option Nat
  undetected : Option Nat
  timeout : Option Nat
  total : Option Nat
deriving DecidableEq, Repr

/-- The all-zero stats object the source substitutes when the upstream
response has no `last_analysis_stats` mapping at all. -/
def vtZeroStats : VTAnalysisStats :=
  ⟨some 0, some 0, some 0, some 0, some 0, some 0⟩

/-- One per-engine finding of `last_analysis_results`. -/
structure VTEngineFinding where
  detected : Bool
  version : String
  result : String
  update : String
deriving DecidableEq, Repr

/-- The `attributes` object of the upstream report response. -/
structure VTAttributes where
  last_analysis_date : Option Int
  last_analysis_stats : Option VTAnalysisStats
  last_analysis_results : Option (List (String × VTEngineFinding))
deriving DecidableEq, Repr

/-- The `data.data` object of the upstream report response. -/
structure VTUpstreamData where
  id : String
  attributes : VTAttributes
deriving DecidableEq, Repr

/-- The VirusTotalReport record of the service. -/
structure VTReport where
  scanId : String
  resource : String
  scanDate : Option Int
  permalink : String
  positives : Nat
  total : Nat
  analysis : VTAnalysisStats
  scans : List (String × VTEngineFinding)
deriving DecidableEq, Repr

/-- Report construction of `getVirusTotalReport` (src/unnamed/part_001 lines
168-189): `positives` and `total` take each counter through `|| 0`; the
`analysis` object is the upstream stats mapping when present (unchanged,
keys possibly missing) and the all-zero object only when the whole mapping
is absent; `scans` defaults to the empty record. -/
def getVirusTotalReportBuild (resource typeStr : String) (d : VTUpstreamData) : VTReport :=
  ⟨d.id,
   resource,
   (d.attributes.last_analysis_date.bind (fun ts => if ts = 0 then none else some ts)),
   "https://www.virustotal.com/gui/" ++ typeStr ++ "/" ++ d.id,
   (d.attributes.last_analysis_stats.bind (fun s => s.malicious)).getD 0,
   (d.attributes.last_analysis_stats.bind (fun s => s.malicious)).getD 0 +
     (d.attributes.last_analysis_stats.bind (fun s => s.suspicious)).getD 0 +
     (d.attributes.last_analysis_stats.bind (fun s => s.harmless)).getD 0 +
     (d.attributes.last_analysis_stats.bind (fun s => s.undetected)).getD 0,
   d.attributes.last_analysis_stats.getD vtZeroStats,
   d.attributes.last_analysis_results.getD []⟩

/-! ## Submission & polling state machine (src/unnamed/part_001 lines 196-281)

The external reputation store is abstracted as an environment giving the
outcome of each network interaction; every definition also returns the list
of network requests it issued, so that "no submission happens" facts are
statements about the trace.  `iterDur k` is the wall-clock time (ms)
consumed by the network activity of poll iteration `k`; the sleep adds the
poll interval on the paths that reach it (a thrown fetch skips the sleep,
exactly as in the source, where the `await` sits at the end of the `try`
block).  The loop fuel equals the wait budget: every real iteration consumes
at least one millisecond of wall clock, so the budget also bounds the
iteration count, and an exhausted fuel yields the timeout failure the real
loop reaches once wall time passes the budget. -/

/-- Outcome of the initial report lookup (`getVirusTotalReport`): a report, a
404 (`null`), or a thrown error. -/
inductive LookupOutcome where
  | found (r : VTReport)
  | notFound
  | err (msg : String)
deriving DecidableEq

/-- Outcome of the submission call (`uploadFileToVirusTotal` /
`submitUrlToVirusTotal` body): the analysis id, or a thrown error. -/
inductive SubmitOutcome where
  | ok (scanId : String)
  | err (msg : String)
deriving DecidableEq

/-- Outcome of the fetch of one poll iteration. -/
inductive PollResponse where
  | httpErr (msg : String)
  | notOk
  | noStats
  | stats (m s h u : Nat)
deriving DecidableEq

/-- Outcome of the `getVirusTotalReport` call made after a completed poll. -/
inductive ReportOutcome where
  | ok (r : VTReport)
  | notFound
  | err (msg : String)
deriving DecidableEq

/-- The environment: outcomes of every external interaction. -/
structure VTEnv where
  lookup : LookupOutcome
  submit : SubmitOutcome
  poll : Nat → PollResponse
  reportResourceId : Nat → Option String
  pollReport : Nat → ReportOutcome
  iterDur : Nat → Nat

/-- One network request issued by the orchestration. -/
inductive VTEvent where
  | lookup
  | submit
  | poll (k : Nat)
  | fetchReport (k : Nat)
deriving DecidableEq, Repr

/-- The timeout failure message of `waitForAnalysis`. -/
def vtTimeoutMsg : String := "Analysis timeout - please check back later"

/-- The polling loop body of `waitForAnalysis`: `t` is the elapsed time,
`k` the index of the next poll attempt. -/
def waitLoopAux (env : VTEnv) (maxWaitTime pollInterval : Nat) :
    Nat → Nat → Nat → Except String (Option VTReport) × List VTEvent
  | 0, _, _ => (.error vtTimeoutMsg, [])
  | fuel + 1, t, k =>
    if t < maxWaitTime then
      match env.poll k with
      | .httpErr _ =>
        let p := waitLoopAux env maxWaitTime pollInterval fuel (t + env.iterDur k) (k + 1)
        (p.1, .poll k :: p.2)
      | .notOk =>
        let p := waitLoopAux env maxWaitTime pollInterval fuel
          (t + env.iterDur k + pollInterval) (k + 1)
        (p.1, .poll k :: p.2)
      | .noStats =>
        let p := waitLoopAux env maxWaitTime pollInterval fuel
          (t + env.iterDur k + pollInterval) (k + 1)
        (p.1, .poll k :: p.2)
      | .stats m s h u =>
        if m + s + h + u > 0 then
          match env.reportResourceId k with
          | some _ =>
            match env.pollReport k with
            | .ok r => (.ok (some r), [.poll k, .fetchReport k])
            | .notFound => (.ok none, [.poll k, .fetchReport k])
            | .err _ =>
              let p := waitLoopAux env maxWaitTime pollInterval fuel (t + env.iterDur k) (k + 1)
              (p.1, .poll k :: .fetchReport k :: p.2)
          | none =>
            let p := waitLoopAux env maxWaitTime pollInterval fuel
              (t + env.iterDur k + pollInterval) (k + 1)
            (p.1, .poll k :: p.2)
        else
          let p := waitLoopAux env maxWaitTime pollInterval fuel
            (t + env.iterDur k + pollInterval) (k + 1)
          (p.1, .poll k :: p.2)
    else (.error vtTimeoutMsg, [])

/-- Default wait budget of `waitForAnalysis` (300 s in ms). -/
def defaultMaxWaitTime : Nat := 300000

/-- Default poll interval of `waitForAnalysis` (10 s in ms). -/
def defaultPollInterval : Nat := 10000

/-- `waitForAnalysis(scanId, maxWaitTime, pollInterval)`
(src/unnamed/part_001 lines 197-230).  The scan id is carried by the
environment rather than the argument. -/
def waitForAnalysis (env : VTEnv) (scanId : String) (maxWaitTime pollInterval : Nat) :
    Except String (Option VTReport) × List VTEvent :=
  waitLoopAux env maxWaitTime pollInterval maxWaitTime 0 0

/-- The `||` operator on an optional string against a string default. -/
def jsOrStr (o : Option String) (d : String) : String :=
  match o with
  | some s => if s = "" then d else s
  | none => d

/-- `uploadFileToVirusTotal` (src/unnamed/part_001 lines 36-60): one
submission request; a failure is thrown after the request was made. -/
def uploadFileToVirusTotal (env : VTEnv) : Except String String × List VTEvent :=
  match env.submit with
  | .ok scanId => (.ok scanId, [.submit])
  | .err m => (.error m, [.submit])

/-- `submitUrlToVirusTotal` (src/unnamed/part_001 lines 109-138): validates
the URL first and throws `validation.reason || 'Invalid URL'` without any
request when it is rejected. -/
def submitUrlToVirusTotal (env : VTEnv) (url : String) : Except String String × List VTEvent :=
  match validateUrlForScanning url with
  | ⟨false, reason⟩ => (.error (jsOrStr reason "Invalid URL"), [])
  | ⟨true, _⟩ =>
    match env.submit with
    | .ok scanId => (.ok scanId, [.submit])
    | .err m => (.error m, [.submit])

/-- Rendering of `reason` inside the template literal
`URL validation failed: ...` (an absent reason prints as `undefined`). -/
def reasonText (o : Option String) : String :=
  match o with
  | some s => s
  | none => "undefined"

/-- `scanFileWithVirusTotal` (src/unnamed/part_001 lines 233-253): lookup by
content hash; return an existing report as is; otherwise upload and poll
with the default budget.  A `null` outcome of the poll becomes the distinct
failure of the source. -/
def scanFileWithVirusTotal (env : VTEnv) (fileHash : String) :
    Except String VTReport × List VTEvent :=
  match env.lookup with
  | .err m => (.error m, [.lookup])
  | .found r => (.ok r, [.lookup])
  | .notFound =>
    match uploadFileToVirusTotal env with
    | (.error m, evs) => (.error m, .lookup :: evs)
    | (.ok scanId, evs) =>
      let w := waitForAnalysis env scanId defaultMaxWaitTime defaultPollInterval
      match w.1 with
      | .error m => (.error m, .lookup :: evs ++ w.2)
      | .ok (some r) => (.ok r, .lookup :: evs ++ w.2)
      | .ok none => (.error "Failed to get analysis report", .lookup :: evs ++ w.2)

/-- `scanUrlWithVirusTotal` (src/unnamed/part_001 lines 256-281): the
denylist validation runs first and a rejected URL fails with the policy
reason before any request; then lookup, submit and poll as for files. -/
def scanUrlWithVirusTotal (env : VTEnv) (url : String) :
    Except String VTReport × List VTEvent :=
  match validateUrlForScanning url with
  | ⟨false, reason⟩ => (.error ("URL validation failed: " ++ reasonText reason), [])
  | ⟨true, _⟩ =>
    match env.lookup with
    | .err m => (.error m, [.lookup])
    | .found r => (.ok r, [.lookup])
    | .notFound =>
      match submitUrlToVirusTotal env url with
      | (.error m, evs) => (.error m, .lookup :: evs)
      | (.ok scanId, evs) =>
        let w := waitForAnalysis env scanId defaultMaxWaitTime defaultPollInterval
        match w.1 with
        | .error m => (.error m, .lookup :: evs ++ w.2)
        | .ok (some r) => (.ok r, .lookup :: evs ++ w.2)
        | .ok none => (.error "Failed to get analysis report", .lookup :: evs ++ w.2)

/-- Number of poll requests in a trace. -/
def countPolls (evs : List VTEvent) : Nat :=
  (evs.filter (fun e => match e with | .poll _ => true | _ => false)).length

/-- Number of submission requests in a trace. -/
def countSubmits (evs : List VTEvent) : Nat :=
  (evs.filter (fun e => match e with | .submit => true | _ => false)).length

/-- A poll response that legitimately keeps the loop waiting: an HTTP
non-success, a body without stats, or stats that sum to zero.  A thrown
fetch is not of this kind. -/
def PollResponse.isStillProcessing : PollResponse → Bool
  | .httpErr _ => false
  | .notOk => true
  | .noStats => true
  | .stats m s h u => m + s + h + u = 0

/-! ## Fact-check source merge (checkFactWithGemini, src/services/geminiService.ts lines 155-171)

Sources gathered from the fact-check registry arrive as complete
`{title, uri}` records; grounding chunks may lack either field and are
skipped unless both are present and non-empty (the truthiness test of the
source).  The merge first deduplicates the chunks against themselves by URI
and then appends the survivors that do not collide with the registry list. -/

/-- A cited source. -/
structure GroundingSource where
  title : String
  uri : String
deriving DecidableEq, Repr

/-- The `web` part of one grounding chunk; either field may be absent. -/
structure GroundingChunkWeb where
  title : Option String
  uri : Option String
deriving DecidableEq, Repr

/-- The `groundingChunks.forEach` loop building `geminiSources`: keep a chunk
when `chunk.web?.uri && chunk.web?.title` is truthy and its URI is not
already collected. -/
def collectGeminiSources (acc : List GroundingSource) :
    List (Option GroundingChunkWeb) → List GroundingSource
  | [] => acc
  | c :: rest =>
    match c with
    | some w =>
      match w.uri, w.title with
      | some u, some t =>
        if u ≠ "" ∧ t ≠ "" then
          if acc.any (fun s0 => s0.uri = u) then collectGeminiSources acc rest
          else collectGeminiSources (acc ++ [⟨t, u⟩]) rest
        else collectGeminiSources acc rest
      | _, _ => collectGeminiSources acc rest
    | none => collectGeminiSources acc rest

/-- The `geminiSources.forEach` loop: append each collected source whose URI
is not already present in the accumulated list (which starts as the
registry list `factCheckData.sources`). -/
def dedupAppendByUri (acc : List GroundingSource) :
    List GroundingSource → List GroundingSource
  | [] => acc
  | g :: rest =>
    if acc.any (fun s0 => s0.uri = g.uri) then dedupAppendByUri acc rest
    else dedupAppendByUri (acc ++ [g]) rest

/-- The combined source list of `checkFactWithGemini`. -/
def mergeFactCheckSources (fcSources : List GroundingSource)
    (chunks : List (Option GroundingChunkWeb)) : List GroundingSource :=
  dedupAppendByUri fcSources (collectGeminiSources [] chunks)

/-- Modelled from the spec: the grounding chunks that carry both a non-empty
URI and a non-empty title, in order — the citations eligible for merging. -/
def validChunkSources : List (Option GroundingChunkWeb) → List GroundingSource
  | [] => []
  | c :: rest =>
    match c with
    | some w =>
      match w.uri, w.title with
      | some u, some t =>
        if u ≠ "" ∧ t ≠ "" then ⟨t, u⟩ :: validChunkSources rest
        else validChunkSources rest
      | _, _ => validChunkSources rest
    | none => validChunkSources rest

/-- Modelled from the spec: de-duplication by URI keeping the first-seen
entry, preserving first-seen order; `seen` holds the URIs already emitted. -/
def dedupFirstAux (seen : List String) : List GroundingSource → List GroundingSource
  | [] => []
  | s :: rest =>
    if s.uri ∈ seen then dedupFirstAux seen rest
    else s :: dedupFirstAux (s.uri :: seen) rest

/-- Modelled from the spec: first-seen-kept de-duplication by URI. -/
def dedupByUriKeepFirst (l : List GroundingSource) : List GroundingSource :=
  dedupFirstAux [] l

/-! ## Concrete environments used by the witnesses and counterexamples -/

/-- A sample terminal report. -/
def sampleReport : VTReport :=
  ⟨"id0", "res0", none, "https://www.virustotal.com/gui/file/id0", 0, 0, vtZeroStats, []⟩

/-- Environment whose lookup already finds a report. -/
def envFound : VTEnv :=
  ⟨.found sampleReport, .ok "a1", fun _ => .stats 0 0 0 0, fun _ => some "r",
   fun _ => .err "boom", fun _ => 1⟩

/-- A store that never completes: every poll answers with zero counts; each
network call takes one millisecond. -/
def envStill : VTEnv :=
  ⟨.notFound, .ok "a1", fun _ => .stats 0 0 0 0, fun _ => some "r",
   fun _ => .err "boom", fun _ => 1⟩

/-- A store whose every poll fetch throws. -/
def envErr : VTEnv :=
  ⟨.notFound, .ok "a1", fun _ => .httpErr "network error", fun _ => some "r",
   fun _ => .err "boom", fun _ => 1⟩

/-- A store whose first poll fetch throws and whose second completes. -/
def envRetry : VTEnv :=
  ⟨.notFound, .ok "a1",
   fun k => if k = 0 then .httpErr "network error" else .stats 1 0 0 0,
   fun _ => some "r", fun _ => .ok sampleReport, fun _ => 1⟩

/-- A store whose first poll completes but whose follow-up report fetch
answers 404. -/
def envNullCase : VTEnv :=
  ⟨.notFound, .ok "a1", fun _ => .stats 1 0 0 0, fun _ => some "r",
   fun _ => .notFound, fun _ => 1⟩

/-! ## Claim theorems -/

/-- C1.  Mode B free-text parser on the mandated concrete input: verdict
MALICIOUS, score 12, narrative between the Analysis and Recommendations
headers, actions with bullet markers stripped and empty lines discarded. -/
theorem modeB_concrete_parse :
    analyzeScamContentParse
        "Verdict: MALICIOUS\nScore: 12\nAnalysis:\n### Executive Summary\nBad file\nRecommendations:\n- Delete it\n- Scan system"
      = ⟨12, Verdict.MALICIOUS, "### Executive Summary\nBad file",
         ["Delete it", "Scan system"]⟩ := by
  decide

/-- C2, counterexample.  A non-empty upstream text that is not JSON is not
treated as an empty object: the parse failure escapes as the fixed operation
error instead of a defaulted result, refuting the claim that normalization
never propagates a parse error. -/
theorem emailNormalize_parse_error_propagates :
    analyzeScamContentEmail "not json" = .error "Failed to analyze content." := by
  rfl

/-- C2, amended.  Only an absent or empty upstream text falls back to the
empty object; the empty object normalizes to score 50, verdict SUSPICIOUS,
the fixed unavailable narrative and the single cautious action; a non-empty
text that fails to parse as JSON surfaces the fixed operation error. -/
theorem emailNormalize_defaults :
    analyzeScamContentEmail "" = .ok scamEmailDefaults ∧
    analyzeScamContentEmail "\x7b\x7d" = .ok scamEmailDefaults ∧
    ∀ t : String, t ≠ "" → jsonParse t = none →
      analyzeScamContentEmail t = .error "Failed to analyze content." := by
  refine ⟨rfl, rfl, ?_⟩
  intro t ht hp
  simp only [analyzeScamContentEmail, if_neg ht, hp]

/-- Witness for the amended C2 statement at a concrete unparsable text. -/
theorem emailNormalize_defaults_witness :
    analyzeScamContentEmail "nope" = .error "Failed to analyze content." :=
  emailNormalize_defaults.2.2 "nope" (by decide) rfl

/-- C9, counterexample.  For the media-authenticity shape, the empty upstream
object yields confidence 0, not the claimed 50. -/
theorem deepfake_confidence_counterexample :
    analyzeDeepfakeMediaNormalize "\x7b\x7d" = .ok deepfakeEmptyDefaults ∧
    deepfakeEmptyDefaults.confidence ≠ Jv.num 50 := by
  refine ⟨rfl, ?_⟩
  intro h
  simp only [deepfakeEmptyDefaults] at h
  exact absurd (congrArg (fun v => match v with | Jv.num q => q | _ => 0) h) (by norm_num)

/-- C9, amended.  Normalizing the empty upstream object for the
media-authenticity shape gives verdict UNCERTAIN, confidence 0 (not 50), the
fixed unavailable narrative, and empty visual/audio finding lists. -/
theorem deepfake_empty_defaults :
    analyzeDeepfakeMediaNormalize "\x7b\x7d"
      = .ok ⟨.str "UNCERTAIN", .num 0, .str "Could not process media details.",
             .arr [], .arr []⟩ := by
  rfl

/-- C6.  The URL policy check is a total function into the structured
`{valid, reason}` record, and on the five mandated inputs: loopback and
private addresses are rejected as private, a virustotal.com subdomain is
rejected as the service domain, a normal news URL passes, and an unparsable
string is rejected as invalid format. -/
theorem validateUrl_policy_cases :
    validateUrlForScanning "http://127.0.0.1/admin"
        = ⟨false, some "Private/internal IP addresses cannot be scanned"⟩ ∧
    validateUrlForScanning "http://10.0.0.5/"
        = ⟨false, some "Private/internal IP addresses cannot be scanned"⟩ ∧
    validateUrlForScanning "https://sub.virustotal.com/x"
        = ⟨false, some "VirusTotal URLs cannot be scanned"⟩ ∧
    validateUrlForScanning "https://news.example.com/story" = ⟨true, none⟩ ∧
    validateUrlForScanning "not a url" = ⟨false, some "Invalid URL format"⟩ := by
  refine ⟨by decide, by decide, by decide, by decide, by decide⟩

/-- C7, counterexample.  When the upstream stats mapping is present but
partial, the constructed report passes it through unchanged: the suspicious
key is absent rather than defaulted to 0, refuting the claim that all four
count keys are always present. -/
theorem report_counts_counterexample :
    (getVirusTotalReportBuild "res0" "file"
        ⟨"id0", ⟨none, some ⟨some 1, none, none, none, none, none⟩, none⟩⟩).analysis.suspicious
      = none ∧
    (getVirusTotalReportBuild "res0" "file"
        ⟨"id0", ⟨none, some ⟨some 1, none, none, none, none, none⟩, none⟩⟩).total = 1 := by
  exact ⟨rfl, rfl⟩

/-- C7, amended.  Every constructed report satisfies: the total field equals
the sum of the four counts of its analysis object with an absent count read
as 0; the four keys are all present (as 0) exactly when the upstream
response omitted the whole stats mapping; a present stats mapping is passed
through unchanged, keys possibly absent. -/
theorem report_counts_invariant (resource typeStr : String) (d : VTUpstreamData) :
    (getVirusTotalReportBuild resource typeStr d).total
        = (getVirusTotalReportBuild resource typeStr d).analysis.malicious.getD 0
          + (getVirusTotalReportBuild resource typeStr d).analysis.suspicious.getD 0
          + (getVirusTotalReportBuild resource typeStr d).analysis.harmless.getD 0
          + (getVirusTotalReportBuild resource typeStr d).analysis.undetected.getD 0 ∧
    (d.attributes.last_analysis_stats = none →
      (getVirusTotalReportBuild resource typeStr d).analysis = vtZeroStats) ∧
    ∀ s, d.attributes.last_analysis_stats = some s →
      (getVirusTotalReportBuild resource typeStr d).analysis = s := by
  refine ⟨?_, ?_, ?_⟩
  · cases h : d.attributes.last_analysis_stats with
    | none => simp [getVirusTotalReportBuild, h, vtZeroStats]
    | some s => simp [getVirusTotalReportBuild, h]
  · intro h
    simp [getVirusTotalReportBuild, h]
  · intro s h
    simp [getVirusTotalReportBuild, h]

/-- Witness for the amended C7 statement at a report whose upstream response
has no stats mapping. -/
theorem report_counts_invariant_witness :
    (getVirusTotalReportBuild "res0" "file" ⟨"id0", ⟨none, none, none⟩⟩).analysis
      = vtZeroStats :=
  (report_counts_invariant "res0" "file" ⟨"id0", ⟨none, none, none⟩⟩).2.1 rfl

/-- C5.  A URL the denylist rejects fails the scan orchestration immediately
with the policy reason; the event trace is empty, so no lookup, submission
or poll request is ever issued for it. -/
theorem scanUrl_policy_before_network (env : VTEnv) (url reason : String)
    (h : validateUrlForScanning url = ⟨false, some reason⟩) :
    scanUrlWithVirusTotal env url = (.error ("URL validation failed: " ++ reason), []) := by
  simp only [scanUrlWithVirusTotal, h, reasonText]

/-- Witness for C5 at the loopback URL. -/
theorem scanUrl_policy_before_network_witness :
    scanUrlWithVirusTotal envFound "http://127.0.0.1/admin"
      = (.error "URL validation failed: Private/internal IP addresses cannot be scanned", []) :=
  scanUrl_policy_before_network envFound "http://127.0.0.1/admin"
    "Private/internal IP addresses cannot be scanned" (by decide)

/-- C4.  A lookup that finds an existing report makes the scan orchestration
return that report with the lookup as its only request; a submission request
appears in a trace only when the lookup answered not-found. -/
theorem scan_found_short_circuits (env : VTEnv) (url fileHash : String) (r : VTReport) :
    (env.lookup = .found r → (validateUrlForScanning url).valid = true →
        scanUrlWithVirusTotal env url = (.ok r, [.lookup])) ∧
    (env.lookup = .found r → scanFileWithVirusTotal env fileHash = (.ok r, [.lookup])) ∧
    (VTEvent.submit ∈ (scanUrlWithVirusTotal env url).2 → env.lookup = .notFound) ∧
    (VTEvent.submit ∈ (scanFileWithVirusTotal env fileHash).2 → env.lookup = .notFound) := by
  refine ⟨?_, ?_, ?_, ?_⟩
  · intro hl hv
    rcases hval : validateUrlForScanning url with ⟨v, reason⟩
    rw [hval] at hv
    subst hv
    simp only [scanUrlWithVirusTotal, hval, hl]
  · intro hl
    simp only [scanFileWithVirusTotal, hl]
  · intro hmem
    rcases hval : validateUrlForScanning url with ⟨v, reason⟩
    cases v with
    | false =>
      simp only [scanUrlWithVirusTotal, hval] at hmem
      simp at hmem
    | true =>
      cases hl : env.lookup with
      | notFound => rfl
      | found r2 =>
        simp only [scanUrlWithVirusTotal, hval, hl] at hmem
        simp at hmem
      | err m =>
        simp only [scanUrlWithVirusTotal, hval, hl] at hmem
        simp at hmem
  · intro hmem
    cases hl : env.lookup with
    | notFound => rfl
    | found r2 =>
      simp only [scanFileWithVirusTotal, hl] at hmem
      simp at hmem
    | err m =>
      simp only [scanFileWithVirusTotal, hl] at hmem
      simp at hmem

/-- Witness for C4: a found lookup on a policy-passing URL returns the
existing report after the lookup alone. -/
theorem scan_found_short_circuits_witness :
    scanUrlWithVirusTotal envFound "https://news.example.com/story"
      = (.ok sampleReport, [.lookup]) :=
  (scan_found_short_circuits envFound "https://news.example.com/story" "h0" sampleReport).1
    rfl (by decide)

/-! ## Polling-loop helper lemmas -/

theorem countPolls_nil : countPolls [] = 0 := rfl

theorem countPolls_poll (k : Nat) (l : List VTEvent) :
    countPolls (VTEvent.poll k :: l) = countPolls l + 1 := by
  simp [countPolls, List.filter]

theorem countPolls_fetch (k : Nat) (l : List VTEvent) :
    countPolls (VTEvent.fetchReport k :: l) = countPolls l := rfl

theorem countSubmits_nil : countSubmits [] = 0 := rfl

theorem countSubmits_cons_lookup (l : List VTEvent) :
    countSubmits (VTEvent.lookup :: l) = countSubmits l := rfl

theorem countSubmits_cons_submit (l : List VTEvent) :
    countSubmits (VTEvent.submit :: l) = countSubmits l + 1 := by
  simp [countSubmits, List.filter]

theorem countSubmits_append (l1 l2 : List VTEvent) :
    countSubmits (l1 ++ l2) = countSubmits l1 + countSubmits l2 := by
  simp [countSubmits, List.filter_append]

/-- The polling loop issues no submission request. -/
theorem countSubmits_waitLoopAux (env : VTEnv) (mw pi : Nat) :
    ∀ fuel t k, countSubmits (waitLoopAux env mw pi fuel t k).2 = 0 := by
  intro fuel
  induction fuel with
  | zero => intro t k; rfl
  | succ f ih =>
    intro t k
    simp only [waitLoopAux]
    by_cases h : t < mw
    · simp only [if_pos h]
      cases hp : env.poll k with
      | httpErr m => exact ih _ _
      | notOk => exact ih _ _
      | noStats => exact ih _ _
      | stats m s hh u =>
        by_cases hsum : m + s + hh + u > 0
        · simp only [if_pos hsum]
          cases hr : env.reportResourceId k with
          | none => exact ih _ _
          | some rid =>
            cases hrep : env.pollReport k with
            | ok r => rfl
            | notFound => rfl
            | err m2 => exact ih _ _
        · simp only [if_neg hsum]
          exact ih _ _
    · simp only [if_neg h]
      rfl

/-- The loop resolves every run to a value or to the timeout failure; no
other error leaves it (report-fetch errors are swallowed and retried). -/
theorem waitLoopAux_ok_or_timeout (env : VTEnv) (mw pi : Nat) :
    ∀ fuel t k, (waitLoopAux env mw pi fuel t k).1 = Except.error vtTimeoutMsg ∨
      ∃ o, (waitLoopAux env mw pi fuel t k).1 = Except.ok o := by
  intro fuel
  induction fuel with
  | zero => intro t k; exact Or.inl rfl
  | succ f ih =>
    intro t k
    simp only [waitLoopAux]
    by_cases h : t < mw
    · simp only [if_pos h]
      cases hp : env.poll k with
      | httpErr m => exact ih _ _
      | notOk => exact ih _ _
      | noStats => exact ih _ _
      | stats m s hh u =>
        by_cases hsum : m + s + hh + u > 0
        · simp only [if_pos hsum]
          cases hr : env.reportResourceId k with
          | none => exact ih _ _
          | some rid =>
            cases hrep : env.pollReport k with
            | ok r => exact Or.inr ⟨some r, rfl⟩
            | notFound => exact Or.inr ⟨none, rfl⟩
            | err m2 => exact ih _ _
        · simp only [if_neg hsum]
          exact ih _ _
    · simp only [if_neg h]
      exact Or.inl trivial

/-- Against a store whose polls always report still-processing, the loop
ends in the timeout failure. -/
theorem waitLoopAux_still_timeout (env : VTEnv) (mw pi : Nat)
    (hstill : ∀ j, (env.poll j).isStillProcessing = true) :
    ∀ fuel t k, (waitLoopAux env mw pi fuel t k).1 = Except.error vtTimeoutMsg := by
  intro fuel
  induction fuel with
  | zero => intro t k; rfl
  | succ f ih =>
    intro t k
    simp only [waitLoopAux]
    by_cases h : t < mw
    · simp only [if_pos h]
      cases hp : env.poll k with
      | httpErr m =>
        have := hstill k
        rw [hp] at this
        simp [PollResponse.isStillProcessing] at this
      | notOk => exact ih _ _
      | noStats => exact ih _ _
      | stats m s hh u =>
        have h0 : m + s + hh + u = 0 := by
          have := hstill k
          rw [hp] at this
          exact of_decide_eq_true this
        have hns : ¬ m + s + hh + u > 0 := by omega
        simp only [if_neg hns]
        exact ih _ _
    · simp only [if_neg h]

/-- Against a still-processing store at the default budget, every iteration
advances the clock by at least the poll interval, so the attempt count is
bounded by the 30 intervals that fit the budget. -/
theorem waitLoopAux_still_countPolls (env : VTEnv)
    (hstill : ∀ j, (env.poll j).isStillProcessing = true) :
    ∀ fuel t k n, 300000 ≤ t + n * 10000 →
      countPolls (waitLoopAux env 300000 10000 fuel t k).2 ≤ n := by
  intro fuel
  induction fuel with
  | zero => intro t k n hn; exact Nat.zero_le n
  | succ f ih =>
    intro t k n hn
    simp only [waitLoopAux]
    by_cases h : t < 300000
    · simp only [if_pos h]
      cases hp : env.poll k with
      | httpErr m =>
        have := hstill k
        rw [hp] at this
        simp [PollResponse.isStillProcessing] at this
      | notOk =>
        cases n with
        | zero => omega
        | succ n2 =>
          show countPolls (VTEvent.poll k ::
            (waitLoopAux env 300000 10000 f (t + env.iterDur k + 10000) (k + 1)).2) ≤ n2 + 1
          rw [countPolls_poll]
          have hb := ih (t + env.iterDur k + 10000) (k + 1) n2 (by omega)
          omega
      | noStats =>
        cases n with
        | zero => omega
        | succ n2 =>
          show countPolls (VTEvent.poll k ::
            (waitLoopAux env 300000 10000 f (t + env.iterDur k + 10000) (k + 1)).2) ≤ n2 + 1
          rw [countPolls_poll]
          have hb := ih (t + env.iterDur k + 10000) (k + 1) n2 (by omega)
          omega
      | stats m s hh u =>
        have h0 : m + s + hh + u = 0 := by
          have := hstill k
          rw [hp] at this
          exact of_decide_eq_true this
        have hns : ¬ m + s + hh + u > 0 := by omega
        simp only [if_neg hns]
        cases n with
        | zero => omega
        | succ n2 =>
          show countPolls (VTEvent.poll k ::
            (waitLoopAux env 300000 10000 f (t + env.iterDur k + 10000) (k + 1)).2) ≤ n2 + 1
          rw [countPolls_poll]
          have hb := ih (t + env.iterDur k + 10000) (k + 1) n2 (by omega)
          omega
    · simp only [if_neg h]
      exact Nat.zero_le n

/-- Against a store whose every poll fetch throws, the loop still ends in
the timeout failure: the errors are swallowed, never surfaced. -/
theorem waitLoopAux_allErr_timeout (env : VTEnv) (mw pi : Nat)
    (herr : ∀ j, ∃ m, env.poll j = PollResponse.httpErr m) :
    ∀ fuel t k, (waitLoopAux env mw pi fuel t k).1 = Except.error vtTimeoutMsg := by
  intro fuel
  induction fuel with
  | zero => intro t k; rfl
  | succ f ih =>
    intro t k
    simp only [waitLoopAux]
    by_cases h : t < mw
    · simp only [if_pos h]
      obtain ⟨m, hm⟩ := herr k
      rw [hm]
      exact ih _ _
    · simp only [if_neg h]

/-- Exact attempt count of the always-erroring one-millisecond store: one
poll per elapsed millisecond until budget or fuel runs out. -/
theorem countPolls_envErr :
    ∀ fuel t k, countPolls (waitLoopAux envErr 300000 10000 fuel t k).2
      = min fuel (300000 - t) := by
  intro fuel
  induction fuel with
  | zero =>
    intro t k
    show countPolls ([] : List VTEvent) = min 0 (300000 - t)
    rw [countPolls_nil]
    omega
  | succ f ih =>
    intro t k
    simp only [waitLoopAux]
    by_cases h : t < 300000
    · simp only [if_pos h]
      show countPolls (VTEvent.poll k ::
        (waitLoopAux envErr 300000 10000 f (t + 1) (k + 1)).2) = min (f + 1) (300000 - t)
      rw [countPolls_poll, ih (t + 1) (k + 1)]
      omega
    · simp only [if_neg h]
      show countPolls ([] : List VTEvent) = min (f + 1) (300000 - t)
      rw [countPolls_nil]
      omega

/-- C3, counterexample.  Two behaviours outside the claimed either-report-or-
timeout dichotomy: a store whose completed analysis is then answered 404
makes the loop return null (neither a terminal report nor the timeout); and
a store whose polls all throw is polled 300000 times at the defaults — far
more than the claimed 30 attempts — because a thrown fetch skips the
inter-poll sleep. -/
theorem waitForAnalysis_nonterminal_outcome :
    (waitForAnalysis envNullCase "a1" defaultMaxWaitTime defaultPollInterval).1
        = Except.ok none ∧
    countPolls (waitForAnalysis envErr "a1" defaultMaxWaitTime defaultPollInterval).2
        = 300000 := by
  constructor
  · rfl
  · have h := countPolls_envErr 300000 0 0
    simpa using h

/-- C3, amended.  The polling loop terminates for every input: it resolves
either to a value (a terminal report, or null when the post-completion
report fetch finds nothing) or to the distinct timeout failure once elapsed
time exceeds the wait budget — never to any other failure.  Against a store
whose polls always report still-processing it performs at most 30 poll
attempts at the default 300 s budget and 10 s interval before raising the
timeout, and exactly 30 when each network call takes one millisecond. -/
theorem waitForAnalysis_termination :
    (∀ (env : VTEnv) (sid : String) (mw pi : Nat),
        (waitForAnalysis env sid mw pi).1 = Except.error vtTimeoutMsg ∨
        ∃ o, (waitForAnalysis env sid mw pi).1 = Except.ok o) ∧
    (∀ (env : VTEnv) (sid : String),
        (∀ j, (env.poll j).isStillProcessing = true) →
        (waitForAnalysis env sid defaultMaxWaitTime defaultPollInterval).1
            = Except.error vtTimeoutMsg ∧
        countPolls (waitForAnalysis env sid defaultMaxWaitTime defaultPollInterval).2 ≤ 30) ∧
    ((waitForAnalysis envStill "a1" defaultMaxWaitTime defaultPollInterval).1
        = Except.error vtTimeoutMsg ∧
     countPolls (waitForAnalysis envStill "a1" defaultMaxWaitTime defaultPollInterval).2 = 30) := by
  refine ⟨?_, ?_, rfl, by decide⟩
  · intro env sid mw pi
    exact waitLoopAux_ok_or_timeout env mw pi mw 0 0
  · intro env sid hstill
    constructor
    · exact waitLoopAux_still_timeout env defaultMaxWaitTime defaultPollInterval hstill
        defaultMaxWaitTime 0 0
    · exact waitLoopAux_still_countPolls env hstill 300000 0 0 30 (by norm_num)

/-- Witness for the amended C3 statement: the canonical never-completing
store is stopped by the timeout after at most 30 attempts. -/
theorem waitForAnalysis_termination_witness :
    countPolls (waitForAnalysis envStill "a1" defaultMaxWaitTime defaultPollInterval).2 ≤ 30 :=
  (waitForAnalysis_termination.2.1 envStill "a1" (fun _ => rfl)).2

/-- C10, counterexample.  A network error during the first poll iteration is
not surfaced: the loop retries, the second poll completes, and the operation
succeeds — refuting the claim that a poll error is surfaced as a failed
operation rather than silently retried. -/
theorem poll_error_retried :
    waitForAnalysis envRetry "a1" defaultMaxWaitTime defaultPollInterval
      = (Except.ok (some sampleReport), [.poll 0, .poll 1, .fetchReport 1]) := by
  rfl

/-- The full polling phase issues no submission request. -/
theorem countSubmits_waitForAnalysis (env : VTEnv) (sid : String) (mw pi : Nat) :
    countSubmits (waitForAnalysis env sid mw pi).2 = 0 :=
  countSubmits_waitLoopAux env mw pi mw 0 0

/-- C10, amended.  The submission call is never retried — every scan trace
holds at most one submission request; within the polling loop both the
still-processing state and a network error cause another iteration, the
errors being swallowed and retried until the budget expires: a store whose
polls always throw ends in the timeout failure, not in a surfaced poll
error. -/
theorem submission_poll_retry_policy :
    (∀ (env : VTEnv) (url fileHash : String),
        countSubmits (scanUrlWithVirusTotal env url).2 ≤ 1 ∧
        countSubmits (scanFileWithVirusTotal env fileHash).2 ≤ 1) ∧
    (∀ (env : VTEnv) (sid : String) (mw pi : Nat),
        (∀ j, ∃ m, env.poll j = PollResponse.httpErr m) →
        (waitForAnalysis env sid mw pi).1 = Except.error vtTimeoutMsg) := by
  constructor
  · intro env url fileHash
    constructor
    · rcases hval : validateUrlForScanning url with ⟨v, reason⟩
      cases v with
      | false =>
        simp only [scanUrlWithVirusTotal, hval]
        exact Nat.zero_le 1
      | true =>
        cases hl : env.lookup with
        | found r => simp only [scanUrlWithVirusTotal, hval, hl]; exact Nat.zero_le 1
        | err m => simp only [scanUrlWithVirusTotal, hval, hl]; exact Nat.zero_le 1
        | notFound =>
          simp only [scanUrlWithVirusTotal, submitUrlToVirusTotal, hval, hl]
          cases hs : env.submit with
          | err m =>
            simp only [countSubmits_cons_lookup, countSubmits_cons_submit, countSubmits_nil]
            omega
          | ok scanId =>
            cases hw : (waitForAnalysis env scanId defaultMaxWaitTime defaultPollInterval).1 with
            | error m =>
              simp only [hw, countSubmits_cons_lookup, countSubmits_append,
                countSubmits_cons_submit, countSubmits_nil, countSubmits_waitForAnalysis]
              omega
            | ok o =>
              cases o with
              | some r =>
                simp only [hw, countSubmits_cons_lookup, countSubmits_append,
                  countSubmits_cons_submit, countSubmits_nil, countSubmits_waitForAnalysis]
                omega
              | none =>
                simp only [hw, countSubmits_cons_lookup, countSubmits_append,
                  countSubmits_cons_submit, countSubmits_nil, countSubmits_waitForAnalysis]
                omega
    · cases hl : env.lookup with
      | found r => simp only [scanFileWithVirusTotal, hl]; exact Nat.zero_le 1
      | err m => simp only [scanFileWithVirusTotal, hl]; exact Nat.zero_le 1
      | notFound =>
        simp only [scanFileWithVirusTotal, uploadFileToVirusTotal, hl]
        cases hs : env.submit with
        | err m =>
          simp only [countSubmits_cons_lookup, countSubmits_cons_submit, countSubmits_nil]
          omega
        | ok scanId =>
          cases hw : (waitForAnalysis env scanId defaultMaxWaitTime defaultPollInterval).1 with
          | error m =>
            simp only [hw, countSubmits_cons_lookup, countSubmits_append,
              countSubmits_cons_submit, countSubmits_nil, countSubmits_waitForAnalysis]
            omega
          | ok o =>
            cases o with
            | some r =>
              simp only [hw, countSubmits_cons_lookup, countSubmits_append,
                countSubmits_cons_submit, countSubmits_nil, countSubmits_waitForAnalysis]
              omega
            | none =>
              simp only [hw, countSubmits_cons_lookup, countSubmits_append,
                countSubmits_cons_submit, countSubmits_nil, countSubmits_waitForAnalysis]
              omega
  · intro env sid mw pi herr
    exact waitLoopAux_allErr_timeout env mw pi herr mw 0 0

/-- Witness for the amended C10 statement at the always-erroring store. -/
theorem submission_poll_retry_policy_witness :
    (waitForAnalysis envErr "a1" defaultMaxWaitTime defaultPollInterval).1
      = Except.error vtTimeoutMsg :=
  submission_poll_retry_policy.2 envErr "a1" defaultMaxWaitTime defaultPollInterval
    (fun _ => ⟨"network error", rfl⟩)

/-! ## Source-merge helper lemmas -/

/-- The Boolean URI scan of the source loops agrees with list membership of
the mapped URIs. -/
theorem any_uri_mem (acc : List GroundingSource) (u : String) :
    (acc.any (fun s0 => s0.uri = u) = true) ↔ u ∈ acc.map (fun s => s.uri) := by
  rw [List.any_eq_true]
  constructor
  · rintro ⟨x, hx, hxe⟩
    exact List.mem_map.mpr ⟨x, hx, of_decide_eq_true hxe⟩
  · intro h
    rcases List.mem_map.mp h with ⟨x, hx, hxe⟩
    exact ⟨x, hx, decide_eq_true hxe⟩

/-- The first-seen de-duplication depends on the seen URIs only through
membership. -/
theorem dedupFirstAux_congr :
    ∀ (l : List GroundingSource) (s1 s2 : List String),
      (∀ u, u ∈ s1 ↔ u ∈ s2) → dedupFirstAux s1 l = dedupFirstAux s2 l := by
  intro l
  induction l with
  | nil => intro s1 s2 h; rfl
  | cons x rest ih =>
    intro s1 s2 h
    simp only [dedupFirstAux]
    by_cases hx : x.uri ∈ s1
    · rw [if_pos hx, if_pos ((h x.uri).mp hx)]
      exact ih s1 s2 h
    · rw [if_neg hx, if_neg (fun hc => hx ((h x.uri).mpr hc))]
      rw [ih (x.uri :: s1) (x.uri :: s2) (fun u => by simp [List.mem_cons, h u])]

/-- The chunk-collection loop equals appending the valid chunk sources with
URI de-duplication against the accumulator. -/
theorem collectGemini_eq :
    ∀ (l : List (Option GroundingChunkWeb)) (acc : List GroundingSource),
      collectGeminiSources acc l = dedupAppendByUri acc (validChunkSources l) := by
  intro l
  induction l with
  | nil => intro acc; rfl
  | cons c rest ih =>
    intro acc
    cases c with
    | none => exact ih acc
    | some w =>
      rcases w with ⟨wt, wu⟩
      cases wu with
      | none => exact ih acc
      | some u =>
        cases wt with
        | none => exact ih acc
        | some t =>
          by_cases htu : u ≠ "" ∧ t ≠ ""
          · simp only [collectGeminiSources, validChunkSources, if_pos htu, dedupAppendByUri]
            by_cases hany : acc.any (fun s0 => s0.uri = u) = true
            · rw [if_pos hany, if_pos hany]
              exact ih acc
            · rw [if_neg hany, if_neg hany]
              exact ih (acc ++ [⟨t, u⟩])
          · simp only [collectGeminiSources, validChunkSources, if_neg htu]
            exact ih acc

/-- The de-duplicating append equals the plain append of the first-seen
de-duplication seeded with the URIs of the accumulator. -/
theorem dedupAppend_eq :
    ∀ (l : List GroundingSource) (acc : List GroundingSource),
      dedupAppendByUri acc l = acc ++ dedupFirstAux (acc.map (fun s => s.uri)) l := by
  intro l
  induction l with
  | nil => intro acc; simp [dedupAppendByUri, dedupFirstAux]
  | cons g rest ih =>
    intro acc
    simp only [dedupAppendByUri, dedupFirstAux]
    by_cases hg : g.uri ∈ acc.map (fun s => s.uri)
    · rw [if_pos ((any_uri_mem acc g.uri).mpr hg), if_pos hg]
      exact ih acc
    · rw [if_neg (fun hc => hg ((any_uri_mem acc g.uri).mp hc)), if_neg hg]
      rw [ih (acc ++ [g])]
      rw [dedupFirstAux_congr rest ((acc ++ [g]).map (fun s => s.uri))
            (g.uri :: acc.map (fun s => s.uri))
            (fun u => by
              rw [List.map_append]
              simp only [List.map_cons, List.map_nil, List.mem_append, List.mem_cons,
                List.not_mem_nil, or_false]
              tauto)]
      simp [List.append_assoc]

/-- Running the first-seen de-duplication twice with different seeds equals
running it once with the union of the seeds. -/
theorem dedup_of_dedup :
    ∀ (l : List GroundingSource) (s t : List String),
      dedupFirstAux s (dedupFirstAux t l) = dedupFirstAux (s ++ t) l := by
  intro l
  induction l with
  | nil => intro s t; rfl
  | cons x rest ih =>
    intro s t
    simp only [dedupFirstAux]
    by_cases hxt : x.uri ∈ t
    · rw [if_pos hxt, if_pos (List.mem_append.mpr (Or.inr hxt))]
      exact ih s t
    · rw [if_neg hxt]
      simp only [dedupFirstAux]
      by_cases hxs : x.uri ∈ s
      · rw [if_pos hxs, if_pos (List.mem_append.mpr (Or.inl hxs))]
        rw [ih s (x.uri :: t)]
        exact dedupFirstAux_congr rest (s ++ x.uri :: t) (s ++ t)
          (fun u => by simp [List.mem_append, List.mem_cons]; constructor
                       · rintro (h | h | h)
                         · exact Or.inl h
                         · subst h; exact Or.inl hxs
                         · exact Or.inr h
                       · rintro (h | h)
                         · exact Or.inl h
                         · exact Or.inr (Or.inr h))
      · rw [if_neg hxs, if_neg (fun hc => by
            rcases List.mem_append.mp hc with h | h
            · exact hxs h
            · exact hxt h)]
        rw [ih (x.uri :: s) (x.uri :: t)]
        congr 1
        exact dedupFirstAux_congr rest ((x.uri :: s) ++ x.uri :: t) (x.uri :: (s ++ t))
          (fun u => by simp [List.mem_append, List.mem_cons]; tauto)

/-- A URI-distinct left part passes through the first-seen de-duplication
unchanged, its URIs joining the seed for the right part. -/
theorem dedupFirstAux_append_left :
    ∀ (fc cs : List GroundingSource) (seen : List String),
      (∀ f ∈ fc, f.uri ∉ seen) → (fc.map (fun s => s.uri)).Nodup →
      dedupFirstAux seen (fc ++ cs)
        = fc ++ dedupFirstAux (fc.map (fun s => s.uri) ++ seen) cs := by
  intro fc
  induction fc with
  | nil => intro cs seen h1 h2; simp
  | cons f fc2 ih =>
    intro cs seen h1 h2
    simp only [List.cons_append, dedupFirstAux, List.append_eq]
    rw [if_neg (h1 f (List.mem_cons_self f fc2))]
    rw [List.map_cons, List.nodup_cons] at h2
    rw [ih cs (f.uri :: seen)
          (fun g hg => by
            intro hc
            rcases List.mem_cons.mp hc with h | h
            · exact h2.1 (h ▸ List.mem_map.mpr ⟨g, hg, rfl⟩)
            · exact h1 g (List.mem_cons_of_mem f hg) h)
          h2.2]
    simp only [List.cons_append, List.map_cons]
    congr 2
    exact dedupFirstAux_congr cs (fc2.map (fun s => s.uri) ++ f.uri :: seen)
      (f.uri :: (fc2.map (fun s => s.uri) ++ seen))
      (fun u => by simp only [List.mem_append, List.mem_cons]; tauto)

/-- C8, counterexample.  The merge never de-duplicates the registry list
against itself: two registry sources sharing one URI both survive, so the
combined output does not contain each URI exactly once. -/
theorem merge_duplicate_registry :
    ((mergeFactCheckSources [⟨"t1", "u"⟩, ⟨"t2", "u"⟩] []).map (fun s => s.uri))
      = ["u", "u"] := by
  decide

/-- C8, amended.  Provided the registry list itself carries no duplicate
URI, the merged output is exactly the first-seen-kept URI de-duplication of
the registry sources followed by the valid model citations: each URI appears
exactly once with its first-seen title, first-seen order is preserved, and
every registry source precedes every model-sourced citation. -/
theorem merge_dedup_refinement (fc : List GroundingSource)
    (chunks : List (Option GroundingChunkWeb))
    (hnd : (fc.map (fun s => s.uri)).Nodup) :
    mergeFactCheckSources fc chunks
      = dedupByUriKeepFirst (fc ++ validChunkSources chunks) := by
  unfold mergeFactCheckSources dedupByUriKeepFirst
  rw [collectGemini_eq chunks [], dedupAppend_eq (validChunkSources chunks) []]
  simp only [List.map_nil, List.nil_append]
  rw [dedupAppend_eq _ fc, dedup_of_dedup]
  rw [dedupFirstAux_append_left fc (validChunkSources chunks) []
        (fun f _ hf => List.not_mem_nil f.uri hf) hnd]

/-- Witness for the amended C8 statement: one registry source and two model
citations, one colliding with the registry URI. -/
theorem merge_dedup_refinement_witness :
    mergeFactCheckSources [⟨"t0", "u1"⟩]
        [some ⟨some "t2", some "u1"⟩, some ⟨some "t3", some "u2"⟩]
      = dedupByUriKeepFirst ([⟨"t0", "u1"⟩]
          ++ validChunkSources [some ⟨some "t2", some "u1"⟩, some ⟨some "t3", some "u2"⟩]) :=
  merge_dedup_refinement [⟨"t0", "u1"⟩]
    [some ⟨some "t2", some "u1"⟩, some ⟨some "t3", some "u2"⟩] (by decide)
